import Mathlib

/-!
Verification of the open-commander session orchestrator, WebSocket proxy and
client hooks against their natural-language specification.

The TypeScript sources are shallowly embedded: pure functions become Lean
functions, and the stateful services become functions over an explicit
"world" record that fixes the outcome of every external call (the Docker
driver, the filesystem, the database).  Each service call additionally
returns the ordered trace of driver calls it performed, so that claims
about "exactly one `run` call" or "`pull` before `run`" become statements
about that trace.
-/

namespace OpenCommander

/-! ## Client presence status (src/apps/web/src/hooks/use-presence-websocket.ts) -/

/-- Threshold below which a presence is `active` (30 s), from
`ACTIVE_THRESHOLD_MS = 30_000`. -/
def ACTIVE_THRESHOLD_MS : Int := 30000

/-- Threshold below which a presence is `viewing` (2 min), from
`VIEWING_THRESHOLD_MS = 2 * 60_000`. -/
def VIEWING_THRESHOLD_MS : Int := 2 * 60000

/-- Presence status values used by the client hook. -/
inductive PresenceStatus where
  | active
  | viewing
  | inactive
deriving DecidableEq, Repr

/-- Core of `computeStatus` as a function of the elapsed time
`Date.now() - lastInteractionMs` (in milliseconds, possibly negative). -/
def computeStatusE (elapsed : Int) : PresenceStatus :=
  if elapsed < ACTIVE_THRESHOLD_MS then PresenceStatus.active
  else if elapsed < VIEWING_THRESHOLD_MS then PresenceStatus.viewing
  else PresenceStatus.inactive

/-- The client hook's `computeStatus(lastInteractionMs)`, with the implicit
`Date.now()` made an explicit `nowMs` argument. -/
def computeStatus (nowMs lastInteractionMs : Int) : PresenceStatus :=
  computeStatusE (nowMs - lastInteractionMs)

/-- Rank of a status along the `active → viewing → inactive` degradation
order, used to state monotonicity. -/
def statusRank : PresenceStatus → Nat
  | PresenceStatus.active => 0
  | PresenceStatus.viewing => 1
  | PresenceStatus.inactive => 2

/-! ## Optimistic session insertion (src/apps/web/src/hooks/use-sessions-websocket.ts) -/

/-- Subset of the `SessionEntry` row shape carried by the sessions hook;
the optimistic insert only inspects `id`. -/
structure SessionEntryM where
  id : String
  name : Option String
  status : String
deriving DecidableEq, Repr

/-- The `addSession` updater returned by `useSessionsWebSocket`: if any
existing entry has the new session's id the list is returned unchanged,
otherwise the session is appended at the end. -/
def addSession (prev : List SessionEntryM) (newSession : SessionEntryM) : List SessionEntryM :=
  if prev.any (fun s => s.id == newSession.id) then prev
  else prev ++ [newSession]

/-! ## String primitives used by the services

JS string operations (`trim`, `includes`) modelled on `List Char`. -/

/-- JS `String.prototype.trim` on the character list: strip leading and
trailing whitespace (the source strings involved are ASCII). -/
def trimChars (l : List Char) : List Char :=
  ((l.dropWhile Char.isWhitespace).reverse.dropWhile Char.isWhitespace).reverse

/-- JS `String.prototype.trim` lifted to `String`. -/
def jsTrim (s : String) : String := String.mk (trimChars s.data)

/-- Helper for `containsSeq`: does `hay` start with `needle`? -/
def startsWithL : List Char → List Char → Bool
  | [], _ => true
  | _ :: _, [] => false
  | p :: ps, c :: cs => c = p && startsWithL ps cs

/-- Occurrence test: does `needle` occur contiguously inside `hay`? -/
def containsSeq (needle : List Char) : List Char → Bool
  | [] => needle.isEmpty
  | c :: cs => startsWithL needle (c :: cs) || containsSeq needle cs

/-- JS `hay.includes(needle)` on `String`. -/
def jsIncludes (hay needle : String) : Bool := containsSeq needle.data hay.data

/-! ## POSIX path arithmetic (node `path.resolve` / `path.relative`)

`resolveWorkspaceMount` calls node's path functions on an absolute root;
they are modelled for POSIX paths via `/`-separated components. -/

/-- Split a character list on `'/'` (the semantics of
`String.prototype.split("/")`); `cur` holds the current component
reversed. -/
def splitSlashAux (cur : List Char) : List Char → List String
  | [] => [String.mk cur.reverse]
  | c :: cs =>
    if c = '/' then String.mk cur.reverse :: splitSlashAux [] cs
    else splitSlashAux (c :: cur) cs

/-- Split a string on `'/'`. -/
def splitSlash (s : String) : List String := splitSlashAux [] s.data

/-- Boolean prefix test on strings. -/
def jsStartsWith (s pre : String) : Bool := startsWithL pre.data s.data

/-- Normalise a component list: drop empty and `.` components and let `..`
pop (never above the root).  The accumulator holds components in reverse. -/
def normComps (acc : List String) : List String → List String
  | [] => acc.reverse
  | c :: cs =>
    if c = "" ∨ c = "." then normComps acc cs
    else if c = ".." then normComps (acc.drop 1) cs
    else normComps (c :: acc) cs

/-- Components of an absolute normalised path. -/
def pathComps (s : String) : List String := normComps [] (splitSlash s)

/-- Node `path.resolve(root, t)` for an absolute `root` (POSIX). -/
def resolvePosix (root t : String) : String :=
  let joined := if jsStartsWith t "/" then t else root ++ "/" ++ t
  "/" ++ String.intercalate "/" (pathComps joined)

/-- Node `path.relative(fromP, toP)` for absolute paths (POSIX). -/
def relativePosix (fromP toP : String) : String :=
  let f := pathComps fromP
  let t := pathComps toP
  let common := (List.zip f t).takeWhile (fun p => p.1 = p.2) |>.length
  String.intercalate "/" (List.replicate (f.length - common) ".." ++ t.drop common)

/-! ## Session service (src/apps/web/src/lib/docker/session.service.ts) -/

/-- Status values of a `TerminalSession` row. -/
inductive SStatus where
  | pending
  | starting
  | running
  | stopped
  | errorS
deriving DecidableEq, Repr

/-- The slice of a `TerminalSession` row that `sessionService.start` reads. -/
structure SessionRow where
  status : SStatus
  containerName : Option String
  projectId : Option String
deriving DecidableEq, Repr

/-- Bind-mount entry `{source, target}` passed to `dockerService.run`. -/
structure Mount where
  source : String
  target : String
deriving DecidableEq, Repr

/-- Classified outcome of one `dockerService.run` call, abstracting the
string tests performed on the thrown error: `conflict` when `stderr`
contains `"already in use"` or `"Conflict"` (checked first), `locked` when
`stderr + message` contains `"locked"`, `other` for any other failure. -/
inductive RunOutcome where
  | ok
  | conflict
  | locked
  | other
deriving DecidableEq, Repr

/-- Chronological record of the external calls `sessionService` makes. -/
inductive DEvent where
  | isRunningQ
  | buildMounts
  | ensureNetwork
  | pull
  | run
  | startContainer
  | restart
  | safeRemove
  | sleepE (ms : Nat)
  | execGit
  | updateDb
  | notifyE
  | cleanupIngress
  | remove
deriving DecidableEq, Repr

instance : BEq DEvent := instBEqOfDecidableEq

/-- Oracle fixing the outcome of every external call during `start`:
`probe1`/`probe2` are the two `isRunning` probes (`none` = no such
container), `runOutcome k` the outcome of the `k`-th `run` call,
`startOk` whether `dockerService.start` succeeds in conflict recovery, and
`agentMounts` the result of `buildAgentMounts`. -/
structure StartWorld where
  probe1 : Option Bool
  runOutcome : Nat → RunOutcome
  startOk : Bool
  probe2 : Option Bool
  agentMounts : List Mount

/-- Failures `sessionService.start` can surface (TRPC errors or a rethrown
driver error). -/
inductive StartErr where
  | notFound
  | badRequest (msg : String)
  | containerNotRunning
  | driver (e : RunOutcome)
deriving DecidableEq, Repr

/-- Result of the modelled `start`: the thrown error or returned container
name, the driver-call trace, and the `mounts` field of the `run` options
when the cold-start path built them. -/
structure StartOutcome where
  res : Except StartErr String
  trace : List DEvent
  runMounts : Option (List Mount)
deriving Repr

/-- Retry bound of the create loop, from `MAX_LAYER_RETRIES = 5`. -/
def MAX_LAYER_RETRIES : Nat := 5

/-- Modelled from the spec: `sessionContainerNames` (src/lib/utils.ts is
not included under src/) derives the agent container name deterministically
from the session id as `oc-sess-<id>`. -/
def sessionContainerName (sessionId : String) : String := "oc-sess-" ++ sessionId

/-- The create loop of `sessionService.start`
(`for (let attempt = 0; attempt <= MAX_LAYER_RETRIES && !launched; attempt++)`):
`i` is the index of the next `run` call and `rem + 1` the number of loop
iterations still permitted (`MAX_LAYER_RETRIES + 1 - attempt`).  On
`conflict`, try `dockerService.start`; if that fails, `safeRemove` +
`ensureNetwork` + one more `run` whose failure is rethrown.  On `locked`
with `attempt < MAX_LAYER_RETRIES`, sleep 5000 ms and retry; otherwise
rethrow.  Any other failure is rethrown. -/
def createLoop (w : StartWorld) : Nat → Nat → Except StartErr Unit × List DEvent
  | _, 0 => (Except.ok (), [])
  | i, rem + 1 =>
    match w.runOutcome i with
    | RunOutcome.ok => (Except.ok (), [DEvent.run])
    | RunOutcome.conflict =>
      if w.startOk then (Except.ok (), [DEvent.run, DEvent.startContainer])
      else
        match w.runOutcome (i + 1) with
        | RunOutcome.ok =>
          (Except.ok (),
            [DEvent.run, DEvent.startContainer, DEvent.safeRemove, DEvent.ensureNetwork, DEvent.run])
        | e =>
          (Except.error (StartErr.driver e),
            [DEvent.run, DEvent.startContainer, DEvent.safeRemove, DEvent.ensureNetwork, DEvent.run])
    | RunOutcome.locked =>
      if rem = 0 then (Except.error (StartErr.driver RunOutcome.locked), [DEvent.run])
      else
        let next := createLoop w (i + 1) rem
        (next.1, DEvent.run :: DEvent.sleepE 5000 :: next.2)
    | RunOutcome.other => (Except.error (StartErr.driver RunOutcome.other), [DEvent.run])

/-- `resolveWorkspaceMount(workspaceSuffix)`: `root` is the resolved
`AGENT_WORKSPACE` (or `none` when unset), `dirExists p` whether `fs.stat p`
succeeds and reports a directory, and the result is the thrown BAD_REQUEST
message or the optional directory to mount at `/workspace`. -/
def resolveWorkspaceMount (root : Option String) (dirExists : String → Bool)
    (workspaceSuffix : Option String) : Except String (Option String) :=
  match root with
  | none => Except.ok none
  | some rt =>
    let trimmed := jsTrim (workspaceSuffix.getD "")
    if trimmed = "" then Except.ok (some rt)
    else if jsIncludes trimmed ".." || jsIncludes trimmed "/" || jsIncludes trimmed "\\" then
      Except.error "Invalid workspace selection."
    else
      let candidate := resolvePosix rt trimmed
      let rel := relativePosix rt candidate
      if jsStartsWith rel ".." || jsStartsWith rel "/" then
        Except.error "Invalid workspace selection."
      else if dirExists candidate then Except.ok (some candidate)
      else Except.error "Workspace folder not found."

/-- Tail of `sessionService.start` shared by every branch that reached the
driver: re-probe `isRunning` (fail `INTERNAL_SERVER_ERROR` unless running),
best-effort `git checkout` when a non-empty `gitBranch` was supplied, then
the DB update to `status = "running"` and, when the row has a project, the
`sessions:<projectId>` broadcast. -/
def finishStart (row : SessionRow) (name : String) (gitBranch : Option String)
    (w : StartWorld) (tr : List DEvent) (rm : Option (List Mount)) : StartOutcome :=
  match w.probe2 with
  | some true =>
    let tr := tr ++ [DEvent.isRunningQ]
    let tr := tr ++ (match gitBranch with
      | some b => if b = "" then [] else [DEvent.execGit]
      | none => [])
    let tr := tr ++ [DEvent.updateDb] ++ (match row.projectId with
      | some _ => [DEvent.notifyE]
      | none => [])
    { res := Except.ok name, trace := tr, runMounts := rm }
  | _ =>
    { res := Except.error StartErr.containerNotRunning,
      trace := tr ++ [DEvent.isRunningQ], runMounts := rm }

/-- `sessionService.start(userId, sessionId, options)` (the current
revision, which skips the short-circuit when `reset = true`): `sess` is the
DB row for `(sessionId, userId)`.  Driver `restart`/`start` on an existing
container are assumed to succeed; their failure would propagate after the
single recorded call and does not change any counted trace prefix. -/
def startSession (sess : Option SessionRow) (sessionId : String) (reset : Bool)
    (workspaceSuffix : Option String) (gitBranch : Option String)
    (root : Option String) (dirExists : String → Bool)
    (w : StartWorld) : StartOutcome :=
  match sess with
  | none => { res := Except.error StartErr.notFound, trace := [], runMounts := none }
  | some row =>
    if ¬ reset ∧ (row.status = SStatus.starting ∨ row.status = SStatus.running) then
      { res := Except.ok (row.containerName.getD ""), trace := [], runMounts := none }
    else if row.status = SStatus.stopped then
      { res := Except.error StartErr.notFound, trace := [], runMounts := none }
    else
      let name := sessionContainerName sessionId
      match w.probe1 with
      | none =>
        match resolveWorkspaceMount root dirExists workspaceSuffix with
        | Except.error m =>
          { res := Except.error (StartErr.badRequest m),
            trace := [DEvent.isRunningQ], runMounts := none }
        | Except.ok wsMount =>
          let mounts := w.agentMounts ++ (match wsMount with
            | some c => [⟨c, "/workspace"⟩]
            | none => [])
          let loop := createLoop w 0 (MAX_LAYER_RETRIES + 1)
          let tr := DEvent.isRunningQ :: DEvent.buildMounts ::
            DEvent.ensureNetwork :: DEvent.pull :: loop.2
          match loop.1 with
          | Except.error e => { res := Except.error e, trace := tr, runMounts := some mounts }
          | Except.ok _ => finishStart row name gitBranch w tr (some mounts)
      | some true =>
        if reset then finishStart row name gitBranch w [DEvent.isRunningQ, DEvent.restart] none
        else finishStart row name gitBranch w [DEvent.isRunningQ] none
      | some false =>
        if reset then finishStart row name gitBranch w [DEvent.isRunningQ, DEvent.restart] none
        else finishStart row name gitBranch w [DEvent.isRunningQ, DEvent.startContainer] none

/-- Classified outcome of `dockerService.remove(agentContainer)` inside
`stop`: success, an error whose `stderr` contains `"No such container"`,
or any other error carrying `error.message` (or `"Unexpected error."`). -/
inductive RemoveOutcome where
  | removed
  | errNoSuch
  | errOther (msg : String)
deriving DecidableEq, Repr

/-- Oracle for `sessionService.stop`: outcome of the agent-container
removal, the post-removal `isRunning` probe, and whether the ingress
cleanup step threw (it is swallowed by the source's `try/catch`, so it does
not appear in the result). -/
structure StopWorld where
  removeOutcome : RemoveOutcome
  probeAfter : Option Bool
  cleanupFails : Bool

/-- The `StopSessionResult` record. -/
structure StopResultM where
  removed : Bool
  containerName : String
  error : Option String
deriving DecidableEq, Repr

/-- `sessionService.stop(sessionId)`: best-effort `safeRemove` of the
ingress helper and ingress-config cleanup (whose failure is caught), then
removal of the agent container with the result classification of the
source.  The function is total: no path throws. -/
def stopSession (sessionId : String) (w : StopWorld) : StopResultM × List DEvent :=
  let name := sessionContainerName sessionId
  let tr0 := [DEvent.safeRemove, DEvent.cleanupIngress, DEvent.remove]
  match w.removeOutcome with
  | RemoveOutcome.removed =>
    match w.probeAfter with
    | none =>
      ({ removed := true, containerName := name, error := none }, tr0 ++ [DEvent.isRunningQ])
    | some _ =>
      ({ removed := false, containerName := name,
         error := some "Container still exists after removal attempt." },
       tr0 ++ [DEvent.isRunningQ])
  | RemoveOutcome.errNoSuch =>
    ({ removed := false, containerName := name, error := none }, tr0)
  | RemoveOutcome.errOther m =>
    ({ removed := false, containerName := name, error := some m }, tr0)

/-! ## Upstream terminal connection (src/apps/web/src/server/presence-broadcaster.ts) -/

/-- Events of one `connectToContainerWs` call: a direct WebSocket attempt
to `ws://<name>:<port>/ws` carrying its open-timeout in ms, a docker-exec
loopback bridge attempt, and the inter-attempt sleep. -/
inductive CEvent where
  | direct (timeoutMs : Nat)
  | bridge
  | csleep (ms : Nat)
deriving DecidableEq, Repr

instance : BEq CEvent := instBEqOfDecidableEq

/-- Oracle for the connection attempts: whether the `k`-th direct WebSocket
opens within its timeout, whether the `k`-th exec bridge's loopback
listener comes up, and whether the WebSocket over that bridge opens. -/
structure ConnWorld where
  directOk : Nat → Bool
  bridgeSetupOk : Nat → Bool
  bridgeOk : Nat → Bool

/-- Result of one `tryOnce`: an OPEN WebSocket, a `null` (both paths
failed), or a rejection of `createDockerExecBridge` that propagates out of
the retry loop. -/
inductive TryRes where
  | success
  | fail
  | abort
deriving DecidableEq, Repr

/-- One attempt of `connectToContainerWs`: direct connection with a 1500 ms
open timeout, then the docker-exec bridge fallback. -/
def tryOnce (w : ConnWorld) (k : Nat) : TryRes × List CEvent :=
  if w.directOk k then (TryRes.success, [CEvent.direct 1500])
  else if w.bridgeSetupOk k then
    if w.bridgeOk k then (TryRes.success, [CEvent.direct 1500, CEvent.bridge])
    else (TryRes.fail, [CEvent.direct 1500, CEvent.bridge])
  else (TryRes.abort, [CEvent.direct 1500, CEvent.bridge])

/-- Overall result of `connectToContainerWs`. -/
inductive ConnRes where
  | connected
  | exhausted
  | bridgeErr
deriving DecidableEq, Repr

/-- The retry loop `for (attempt = 1; attempt <= maxAttempts; attempt++)`
with a 500 ms sleep between attempts (`k` is the attempt number, `fuel` the
attempts remaining). -/
def connectLoop (w : ConnWorld) : Nat → Nat → ConnRes × List CEvent
  | _, 0 => (ConnRes.exhausted, [])
  | k, fuel + 1 =>
    match tryOnce w k with
    | (TryRes.success, tr) => (ConnRes.connected, tr)
    | (TryRes.abort, tr) => (ConnRes.bridgeErr, tr)
    | (TryRes.fail, tr) =>
      if fuel = 0 then (ConnRes.exhausted, tr)
      else
        let next := connectLoop w (k + 1) fuel
        (next.1, tr ++ CEvent.csleep 500 :: next.2)

/-- `connectToContainerWs` with its default `maxAttempts = 10` and
`retryDelayMs = 500`. -/
def connectToContainerWs (w : ConnWorld) : ConnRes × List CEvent :=
  connectLoop w 1 10

/-- Close frame sent on the `/terminal/:sessionId` client socket when the
upstream connection could not be established (`catch` around
`connectToContainerWs`); `none` when the upstream connected. -/
def terminalClose (w : ConnWorld) : Option (Nat × String) :=
  match (connectToContainerWs w).1 with
  | ConnRes.connected => none
  | _ => some (1011, "Could not connect to terminal")

/-! ## Terminal bridge pre-connect buffer (src/apps/web/src/server/presence-broadcaster.ts) -/

/-- A client WebSocket frame `{data, isBinary}`. -/
structure Frame where
  data : String
  isBinary : Bool
deriving DecidableEq, Repr

/-- Timeline events of one `/terminal` bridge: a client frame arriving, or
the upstream becoming OPEN (at which point the handler synchronously swaps
the buffering listener for pass-through and flushes the buffer). -/
inductive BridgeEv where
  | clientFrame (f : Frame)
  | upstreamOpened
deriving DecidableEq, Repr

/-- Bridge state: the pre-connect buffer (`clientMessageBuffer`), whether
the upstream is OPEN, and the frames sent upstream so far in order. -/
structure BridgeState where
  buffer : List Frame
  opened : Bool
  sent : List Frame
deriving DecidableEq, Repr

/-- One step of the bridge: before the upstream opens, a client frame is
pushed onto the buffer; on open, the buffer is flushed upstream in order
(`for (const m of clientMessageBuffer) upstream.send(m)`) and emptied;
after open, client frames are forwarded directly.  The flush and listener
swap are synchronous in the source, so no client frame can interleave. -/
def bridgeStep (st : BridgeState) : BridgeEv → BridgeState
  | BridgeEv.clientFrame f =>
    if st.opened then { st with sent := st.sent ++ [f] }
    else { st with buffer := st.buffer ++ [f] }
  | BridgeEv.upstreamOpened =>
    { buffer := [], opened := true, sent := st.sent ++ st.buffer }

/-- Run a `/terminal` bridge over a timeline of events from the initial
state (empty buffer, upstream not yet open, nothing sent). -/
def bridgeRun (evs : List BridgeEv) : BridgeState :=
  evs.foldl bridgeStep { buffer := [], opened := false, sent := [] }

/-! ## Git workspace service (gitService in src/apps/web/src/lib/docker/session.service.ts) -/

/-- The clone URL built by `cloneOrPull`: token-authenticated when a
`GITHUB_TOKEN` is configured. -/
def cloneUrlFor (token : Option String) (owner repo : String) : String :=
  match token with
  | some t => "https://" ++ t ++ "@github.com/" ++ owner ++ "/" ++ repo ++ ".git"
  | none => "https://github.com/" ++ owner ++ "/" ++ repo ++ ".git"

/-- Drop `p` from the front of `s`, or `none` when `s` does not start with
`p`. -/
def stripPrefixL : List Char → List Char → Option (List Char)
  | [], s => some s
  | _ :: _, [] => none
  | p :: ps, c :: cs => if c = p then stripPrefixL ps cs else none

/-- Split at the first `'@'`: returns the maximal `'@'`-free prefix and the
remainder (which is empty or starts with `'@'`). -/
def takeNonAt : List Char → List Char × List Char
  | [] => ([], [])
  | c :: cs =>
    if c = '@' then ([], c :: cs)
    else
      let r := takeNonAt cs
      (c :: r.1, r.2)

/-- The literal `https://` of the redaction regex. -/
def httpsChars : List Char := "https://".data

/-- The literal `github.com` of the redaction regex. -/
def ghChars : List Char := "github.com".data

/-- The replacement string `https://***@github.com`. -/
def replChars : List Char := "https://***@github.com".data

/-- Match of the redaction regex `https:\/\/[^@]+@github\.com` anchored at
the start of `s`: because `[^@]+` cannot cross an `'@'`, the match is
forced to read `https://`, then at least one character up to the first
`'@'`, then the literal `github.com`; returns the remainder after the
match. -/
def matchTail (s : List Char) : Option (List Char) :=
  match stripPrefixL httpsChars s with
  | none => none
  | some r =>
    let p := takeNonAt r
    match p.2 with
    | c :: r2 =>
      if c = '@' then (if p.1.isEmpty then none else stripPrefixL ghChars r2) else none
    | [] => none

/-- Global left-to-right non-overlapping replacement of the redaction
regex, fuelled so the kernel can evaluate it (any `fuel ≥ s.length`
computes the fixpoint). -/
def sanitizeChars : Nat → List Char → List Char
  | 0, s => s
  | _ + 1, [] => []
  | fuel + 1, c :: cs =>
    match matchTail (c :: cs) with
    | some r => replChars ++ sanitizeChars fuel r
    | none => c :: sanitizeChars fuel cs

/-- `message.replace(/https:\/\/[^@]+@github\.com/g, "https://***@github.com")`
on a character list. -/
def sanitizeL (s : List Char) : List Char := sanitizeChars s.length s

/-- The sanitiser lifted to `String`. -/
def sanitizeMessage (s : String) : String := String.mk (sanitizeL s.data)

/-- The message of the error `gitService.clone` throws when the underlying
`git clone` fails with message `raw`. -/
def cloneThrownMessage (raw : String) : String :=
  "Failed to clone repository: " ++ sanitizeMessage raw

/-- Trace produced by the create loop when every `run` attempt fails with
`LayerLocked`: one `run` per attempt, a 5000 ms sleep between consecutive
attempts. -/
def lockedTrace : Nat → List DEvent
  | 0 => []
  | 1 => [DEvent.run]
  | n + 2 => DEvent.run :: DEvent.sleepE 5000 :: lockedTrace (n + 1)

/-- Trace produced by `connectLoop` when every attempt fails: a direct try
and a bridge try per attempt, a 500 ms sleep between consecutive
attempts (`n` sleeps for `n + 1` attempts). -/
def allFailTrace : Nat → List CEvent
  | 0 => [CEvent.direct 1500, CEvent.bridge]
  | n + 1 => CEvent.direct 1500 :: CEvent.bridge :: CEvent.csleep 500 :: allFailTrace n

end OpenCommander

namespace OpenCommander

/-- C8: `computeStatus` returns `active` exactly below 30 s elapsed,
`viewing` exactly in [30 s, 120 s), `inactive` otherwise; 30 s exactly is
`viewing`, 120 s exactly is `inactive`; and the status is monotone (never
moves back toward `active`) as elapsed time grows. -/
theorem computeStatus_thresholds_and_monotone :
    (∀ nowMs lastMs : Int,
      (computeStatus nowMs lastMs = PresenceStatus.active ↔ nowMs - lastMs < 30000)
      ∧ (computeStatus nowMs lastMs = PresenceStatus.viewing ↔
          30000 ≤ nowMs - lastMs ∧ nowMs - lastMs < 120000)
      ∧ (computeStatus nowMs lastMs = PresenceStatus.inactive ↔ 120000 ≤ nowMs - lastMs))
    ∧ (∀ t : Int, computeStatus (t + 30000) t = PresenceStatus.viewing)
    ∧ (∀ t : Int, computeStatus (t + 120000) t = PresenceStatus.inactive)
    ∧ (∀ now₁ now₂ lastMs : Int, now₁ ≤ now₂ →
        statusRank (computeStatus now₁ lastMs) ≤ statusRank (computeStatus now₂ lastMs)) := by
  have hps : ∀ a b : Int, computeStatus a b =
      if a - b < 30000 then PresenceStatus.active
      else if a - b < 120000 then PresenceStatus.viewing
      else PresenceStatus.inactive := fun _ _ => rfl
  refine ⟨fun nowMs lastMs => ?_, fun t => ?_, fun t => ?_, fun now₁ now₂ lastMs h => ?_⟩
  · rw [hps]
    refine ⟨?_, ?_, ?_⟩ <;> (split_ifs with h1 h2 <;> simp <;> omega)
  · have he : (t + 30000) - t = (30000 : Int) := by ring
    unfold computeStatus
    rw [he]
    decide
  · have he : (t + 120000) - t = (120000 : Int) := by ring
    unfold computeStatus
    rw [he]
    decide
  · rw [hps, hps]
    split_ifs <;> simp only [statusRank] <;> omega

/-- Witness for C8 at concrete inputs: elapsed 29 999 ms is strictly below
the active threshold, and the theorem instantiated at time 29 999/0 yields
`active`. -/
theorem computeStatus_thresholds_witness :
    computeStatus 29999 0 = PresenceStatus.active
    ∧ computeStatus 30000 0 = PresenceStatus.viewing
    ∧ statusRank (computeStatus 10000 0) ≤ statusRank (computeStatus 200000 0) := by
  refine ⟨?_, computeStatus_thresholds_and_monotone.2.1 0, ?_⟩
  · exact (computeStatus_thresholds_and_monotone.1 29999 0).1.2 (by decide)
  · exact computeStatus_thresholds_and_monotone.2.2.2 10000 200000 0 (by decide)

/-- C10: `addSession` is idempotent on session ids: when the new session's
id already occurs in the list the list is returned unchanged, otherwise the
session is appended at the end. -/
theorem addSession_idempotent_on_ids (prev : List SessionEntryM) (s : SessionEntryM) :
    ((∃ e ∈ prev, e.id = s.id) → addSession prev s = prev)
    ∧ (¬ (∃ e ∈ prev, e.id = s.id) → addSession prev s = prev ++ [s]) := by
  constructor
  · intro h
    unfold addSession
    rw [if_pos]
    rw [List.any_eq_true]
    obtain ⟨e, he, hid⟩ := h
    exact ⟨e, he, by simpa using hid⟩
  · intro h
    unfold addSession
    rw [if_neg]
    intro hany
    rw [List.any_eq_true] at hany
    obtain ⟨e, he, hid⟩ := hany
    exact h ⟨e, he, by simpa using hid⟩

/-- Witness for C10: applying the theorem at a concrete two-element list
shows a duplicate id leaves the list unchanged. -/
theorem addSession_idempotent_witness :
    addSession [⟨"a", none, "running"⟩] ⟨"a", some "n", "pending"⟩ = [⟨"a", none, "running"⟩] :=
  (addSession_idempotent_on_ids [⟨"a", none, "running"⟩] ⟨"a", some "n", "pending"⟩).1
    ⟨⟨"a", none, "running"⟩, by simp⟩

/-! ## Create-loop lemmas -/

theorem createLoop_locked_step (w : StartWorld) (j m : Nat)
    (hj : w.runOutcome j = RunOutcome.locked) (hm : m ≠ 0) :
    createLoop w j (m + 1)
      = ((createLoop w (j + 1) m).1,
         DEvent.run :: DEvent.sleepE 5000 :: (createLoop w (j + 1) m).2) := by
  simp [createLoop, hj, hm]

theorem createLoop_allLocked (w : StartWorld) (h : ∀ k, w.runOutcome k = RunOutcome.locked) :
    ∀ rem i, createLoop w i (rem + 1)
      = (Except.error (StartErr.driver RunOutcome.locked), lockedTrace (rem + 1)) := by
  intro rem
  induction rem with
  | zero => intro i; simp [createLoop, h i, lockedTrace]
  | succ n ih =>
    intro i
    rw [createLoop_locked_step w i (n + 1) (h i) (Nat.succ_ne_zero n), ih (i + 1)]
    rfl

theorem createLoop_count_restart (w : StartWorld) :
    ∀ rem i, ((createLoop w i rem).2.count DEvent.restart) = 0 := by
  intro rem
  induction rem with
  | zero => intro i; simp [createLoop]
  | succ n ih =>
    intro i
    simp only [createLoop]
    cases h : w.runOutcome i with
    | ok => simp [List.count_cons, beq_iff_eq]
    | conflict =>
      by_cases hs : w.startOk
      · simp [hs, List.count_cons, beq_iff_eq]
      · cases h2 : w.runOutcome (i + 1) <;> simp [hs, List.count_cons, beq_iff_eq]
    | locked =>
      by_cases hn : n = 0
      · simp [hn, List.count_cons, beq_iff_eq]
      · simp [if_neg hn, List.count_cons, beq_iff_eq, ih (i + 1)]
    | other => simp [List.count_cons, beq_iff_eq]

theorem createLoop_count_run_pos (w : StartWorld) :
    ∀ rem i, 1 ≤ ((createLoop w i (rem + 1)).2.count DEvent.run) := by
  intro rem i
  simp only [createLoop]
  cases h : w.runOutcome i with
  | ok => simp [List.count_cons, beq_iff_eq]
  | conflict =>
    by_cases hs : w.startOk
    · simp [hs, List.count_cons, beq_iff_eq]
    · cases h2 : w.runOutcome (i + 1) <;> simp [hs, List.count_cons, beq_iff_eq]
  | locked =>
    by_cases hn : rem = 0
    · simp [hn, List.count_cons, beq_iff_eq]
    · simp [if_neg hn, List.count_cons, beq_iff_eq]
  | other => simp [List.count_cons, beq_iff_eq]

theorem createLoop_first_ok (w : StartWorld) (i rem : Nat)
    (h : w.runOutcome i = RunOutcome.ok) :
    createLoop w i (rem + 1) = (Except.ok (), [DEvent.run]) := by
  simp [createLoop, h]

/-- C3 counterexample: with every `run` attempt failing `LayerLocked`, the
create loop calls `run` six times, not at most `MAX_LAYER_RETRIES = 5`
times (the loop condition is `attempt <= MAX_LAYER_RETRIES`). -/
theorem createLoop_six_attempts_counterexample :
    ((createLoop ⟨none, fun _ => RunOutcome.locked, true, some true, []⟩ 0
        (MAX_LAYER_RETRIES + 1)).2.count DEvent.run) = 6
    ∧ ¬ ((createLoop ⟨none, fun _ => RunOutcome.locked, true, some true, []⟩ 0
        (MAX_LAYER_RETRIES + 1)).2.count DEvent.run ≤ MAX_LAYER_RETRIES) := by
  constructor <;> decide

/-- C3 (amended): when every `run` attempt fails with `LayerLocked`, the
create loop of `sessionService.start` performs exactly
`MAX_LAYER_RETRIES + 1 = 6` `run` attempts with a 5-second sleep between
consecutive attempts, and terminates aborting with the last
(`LayerLocked`) error. -/
theorem createLoop_locked_bounded (w : StartWorld)
    (h : ∀ k, w.runOutcome k = RunOutcome.locked) :
    createLoop w 0 (MAX_LAYER_RETRIES + 1)
      = (Except.error (StartErr.driver RunOutcome.locked),
         [DEvent.run, DEvent.sleepE 5000, DEvent.run, DEvent.sleepE 5000, DEvent.run,
          DEvent.sleepE 5000, DEvent.run, DEvent.sleepE 5000, DEvent.run, DEvent.sleepE 5000,
          DEvent.run])
    ∧ ((createLoop w 0 (MAX_LAYER_RETRIES + 1)).2.count DEvent.run) = MAX_LAYER_RETRIES + 1 := by
  have hx := createLoop_allLocked w h MAX_LAYER_RETRIES 0
  constructor
  · rw [hx]; rfl
  · rw [hx]; decide

/-- Witness for C3 (amended) at a concrete all-locked world. -/
theorem createLoop_locked_bounded_witness :
    ((createLoop ⟨some true, fun _ => RunOutcome.locked, false, none, []⟩ 0
        (MAX_LAYER_RETRIES + 1)).2.count DEvent.run) = MAX_LAYER_RETRIES + 1 :=
  (createLoop_locked_bounded ⟨some true, fun _ => RunOutcome.locked, false, none, []⟩
    (fun _ => rfl)).2

/-! ## Stop (C5) -/

/-- C5: `sessionService.stop` returns `removed:false` without an error when
removal fails with `"No such container"`; returns `removed:false` with a
"still exists" error when removal returns but the container still exists;
and the best-effort ingress-helper removal and ingress-config cleanup
always precede the agent removal and never change the outcome (no path of
`stop` throws - the modelled result is total in the oracle). -/
theorem stop_result_classification (sessionId : String) (w : StopWorld) :
    (w.removeOutcome = RemoveOutcome.errNoSuch →
      (stopSession sessionId w).1
        = { removed := false, containerName := sessionContainerName sessionId, error := none })
    ∧ (∀ b, w.removeOutcome = RemoveOutcome.removed → w.probeAfter = some b →
        (stopSession sessionId w).1.removed = false
        ∧ (stopSession sessionId w).1.error
            = some "Container still exists after removal attempt."
        ∧ jsIncludes "Container still exists after removal attempt." "still exists" = true)
    ∧ (stopSession sessionId w).2.take 2 = [DEvent.safeRemove, DEvent.cleanupIngress]
    ∧ (∀ w' : StopWorld, w'.removeOutcome = w.removeOutcome → w'.probeAfter = w.probeAfter →
        stopSession sessionId w' = stopSession sessionId w) := by
  refine ⟨?_, ?_, ?_, ?_⟩
  · intro h
    simp [stopSession, h]
  · intro b h1 h2
    refine ⟨?_, ?_, by decide⟩ <;> simp [stopSession, h1, h2]
  · cases h : w.removeOutcome with
    | removed => cases hp : w.probeAfter <;> simp [stopSession, h, hp]
    | errNoSuch => simp [stopSession, h]
    | errOther m => simp [stopSession, h]
  · intro w' h1 h2
    simp [stopSession, h1, h2]

/-- Witness for C5 at a concrete world: removal failing with
`"No such container"` yields `removed:false` and no error. -/
theorem stop_result_classification_witness :
    (stopSession "s1" ⟨RemoveOutcome.errNoSuch, none, true⟩).1
      = { removed := false, containerName := sessionContainerName "s1", error := none } :=
  (stop_result_classification "s1" ⟨RemoveOutcome.errNoSuch, none, true⟩).1 rfl

/-! ## Terminal bridge FIFO (C7) -/

theorem bridge_buffer_phase (pre : List Frame) :
    ∀ st : BridgeState, st.opened = false →
      (pre.map BridgeEv.clientFrame).foldl bridgeStep st
        = { buffer := st.buffer ++ pre, opened := false, sent := st.sent } := by
  induction pre with
  | nil => intro st h; cases st; simp_all
  | cons f fs ih =>
    intro st h
    simp only [List.map_cons, List.foldl_cons]
    rw [show bridgeStep st (BridgeEv.clientFrame f)
        = { buffer := st.buffer ++ [f], opened := st.opened, sent := st.sent } by
      simp [bridgeStep, h]]
    rw [ih _ (by simp [h])]
    simp [h]

theorem bridge_open_phase (post : List Frame) :
    ∀ st : BridgeState, st.opened = true →
      (post.map BridgeEv.clientFrame).foldl bridgeStep st
        = { buffer := st.buffer, opened := true, sent := st.sent ++ post } := by
  induction post with
  | nil => intro st h; cases st; simp_all
  | cons f fs ih =>
    intro st h
    simp only [List.map_cons, List.foldl_cons]
    rw [show bridgeStep st (BridgeEv.clientFrame f)
        = { buffer := st.buffer, opened := st.opened, sent := st.sent ++ [f] } by
      simp [bridgeStep, h]]
    rw [ih _ (by simp [h])]
    simp [h]

/-- C7: along a `/terminal` bridge timeline in which the client frames
`pre` arrive before the upstream opens and `post` after, nothing is sent
upstream before the open (the frames sit in the buffer in arrival order),
and the complete upstream send sequence is exactly `pre ++ post`: the
buffer is drained FIFO and emptied before any post-open frame, with no
client-to-upstream reordering. -/
theorem terminal_bridge_fifo (pre post : List Frame) :
    (bridgeRun (pre.map BridgeEv.clientFrame)).sent = []
    ∧ (bridgeRun (pre.map BridgeEv.clientFrame)).buffer = pre
    ∧ (bridgeRun (pre.map BridgeEv.clientFrame
        ++ BridgeEv.upstreamOpened :: post.map BridgeEv.clientFrame)).sent = pre ++ post
    ∧ (bridgeRun (pre.map BridgeEv.clientFrame
        ++ BridgeEv.upstreamOpened :: post.map BridgeEv.clientFrame)).buffer = [] := by
  have h0 : bridgeRun (pre.map BridgeEv.clientFrame)
      = { buffer := pre, opened := false, sent := [] } := by
    unfold bridgeRun
    rw [bridge_buffer_phase pre _ rfl]
    simp
  have h1 : bridgeRun (pre.map BridgeEv.clientFrame
      ++ BridgeEv.upstreamOpened :: post.map BridgeEv.clientFrame)
      = { buffer := [], opened := true, sent := pre ++ post } := by
    unfold bridgeRun
    rw [List.foldl_append]
    rw [show (pre.map BridgeEv.clientFrame).foldl bridgeStep
        { buffer := [], opened := false, sent := [] }
        = { buffer := pre, opened := false, sent := [] } from by
      rw [bridge_buffer_phase pre _ rfl]; simp]
    simp only [List.foldl_cons]
    rw [show bridgeStep { buffer := pre, opened := false, sent := [] } BridgeEv.upstreamOpened
        = { buffer := [], opened := true, sent := pre } by simp [bridgeStep]]
    rw [bridge_open_phase post _ rfl]
  rw [h0, h1]
  exact ⟨rfl, rfl, rfl, rfl⟩

/-! ## Upstream connection retries (C6) -/

theorem tryOnce_direct_count (w : ConnWorld) (k : Nat) :
    ((tryOnce w k).2.count (CEvent.direct 1500)) = 1 := by
  unfold tryOnce
  split_ifs <;> simp [List.count_cons]

theorem connectLoop_success_step (w : ConnWorld) (k fuel : Nat) (tr : List CEvent)
    (h : tryOnce w k = (TryRes.success, tr)) :
    connectLoop w k (fuel + 1) = (ConnRes.connected, tr) := by
  simp [connectLoop, h]

theorem connectLoop_abort_step (w : ConnWorld) (k fuel : Nat) (tr : List CEvent)
    (h : tryOnce w k = (TryRes.abort, tr)) :
    connectLoop w k (fuel + 1) = (ConnRes.bridgeErr, tr) := by
  simp [connectLoop, h]

theorem connectLoop_fail_last (w : ConnWorld) (k : Nat) (tr : List CEvent)
    (h : tryOnce w k = (TryRes.fail, tr)) :
    connectLoop w k 1 = (ConnRes.exhausted, tr) := by
  simp [connectLoop, h]

theorem connectLoop_fail_step (w : ConnWorld) (k m : Nat) (tr : List CEvent)
    (h : tryOnce w k = (TryRes.fail, tr)) (hm : m ≠ 0) :
    connectLoop w k (m + 1)
      = ((connectLoop w (k + 1) m).1, tr ++ CEvent.csleep 500 :: (connectLoop w (k + 1) m).2) := by
  simp [connectLoop, h, hm]

theorem connectLoop_direct_le (w : ConnWorld) :
    ∀ fuel k, ((connectLoop w k fuel).2.count (CEvent.direct 1500)) ≤ fuel := by
  intro fuel
  induction fuel with
  | zero => intro k; simp [connectLoop]
  | succ n ih =>
    intro k
    have hcnt := tryOnce_direct_count w k
    rcases htr : tryOnce w k with ⟨res, tr⟩
    rw [htr] at hcnt
    simp only at hcnt
    cases res with
    | success =>
      have h2 : (connectLoop w k (n + 1)).2 = tr := by
        rw [connectLoop_success_step w k n tr htr]
      rw [h2, hcnt]
      omega
    | abort =>
      have h2 : (connectLoop w k (n + 1)).2 = tr := by
        rw [connectLoop_abort_step w k n tr htr]
      rw [h2, hcnt]
      omega
    | fail =>
      by_cases hn : n = 0
      · subst hn
        have h2 : (connectLoop w k 1).2 = tr := by
          rw [connectLoop_fail_last w k tr htr]
        rw [h2, hcnt]
      · have h2 : (connectLoop w k (n + 1)).2
            = tr ++ CEvent.csleep 500 :: (connectLoop w (k + 1) n).2 := by
          rw [connectLoop_fail_step w k n tr htr hn]
        rw [h2]
        have hih := ih (k + 1)
        have hne : (CEvent.direct 1500 == CEvent.csleep 500) = false := by decide
        have hne2 : (CEvent.csleep 500 == CEvent.direct 1500) = false := by decide
        simp [List.count_append, List.count_cons, hne, hne2, hcnt]
        omega

theorem connectLoop_allfail (w : ConnWorld)
    (hd : ∀ k, w.directOk k = false) (hs : ∀ k, w.bridgeSetupOk k = true)
    (hb : ∀ k, w.bridgeOk k = false) :
    ∀ fuel k, connectLoop w k (fuel + 1) = (ConnRes.exhausted, allFailTrace fuel) := by
  have ht : ∀ k, tryOnce w k = (TryRes.fail, [CEvent.direct 1500, CEvent.bridge]) := by
    intro k; simp [tryOnce, hd k, hs k, hb k]
  intro fuel
  induction fuel with
  | zero => intro k; rw [connectLoop_fail_last w k _ (ht k)]; rfl
  | succ n ih =>
    intro k
    rw [connectLoop_fail_step w k (n + 1) _ (ht k) (Nat.succ_ne_zero n), ih (k + 1)]
    rfl

/-- C6: `connectToContainerWs` makes at most 10 attempts; every attempt
starts with a direct WebSocket open carrying the 1500 ms timeout, succeeds
alone when the direct connection opens, and falls back to the docker-exec
bridge when it does not; with 500 ms sleeps between consecutive attempts;
and when every attempt fails the `/terminal` handler closes the client
socket with code 1011 and reason "Could not connect to terminal". -/
theorem connect_upstream_retries (w : ConnWorld) :
    ((connectToContainerWs w).2.count (CEvent.direct 1500) ≤ 10)
    ∧ (∀ k, ((tryOnce w k).2.head? = some (CEvent.direct 1500)))
    ∧ (∀ k, w.directOk k = true → (tryOnce w k).2 = [CEvent.direct 1500])
    ∧ (∀ k, w.directOk k = false → CEvent.bridge ∈ (tryOnce w k).2)
    ∧ ((∀ k, w.directOk k = false) → (∀ k, w.bridgeSetupOk k = true) →
        (∀ k, w.bridgeOk k = false) →
        terminalClose w = some (1011, "Could not connect to terminal")
        ∧ ((connectToContainerWs w).2.count (CEvent.direct 1500)) = 10
        ∧ ((connectToContainerWs w).2.count (CEvent.csleep 500)) = 9) := by
  refine ⟨connectLoop_direct_le w 10 1, ?_, ?_, ?_, ?_⟩
  · intro k; unfold tryOnce; split_ifs <;> rfl
  · intro k h; simp [tryOnce, h]
  · intro k h; unfold tryOnce; split_ifs <;> simp_all
  · intro hd hs hb
    have h9 := connectLoop_allfail w hd hs hb 9 1
    have h10 : connectToContainerWs w = (ConnRes.exhausted, allFailTrace 9) := by
      unfold connectToContainerWs
      rw [show (10 : Nat) = 9 + 1 from rfl]
      exact h9
    refine ⟨?_, ?_, ?_⟩
    · unfold terminalClose
      rw [h10]
    · rw [h10]
      decide
    · rw [h10]
      decide

/-- Witness for C6 at a concrete world in which every attempt fails: the
handler closes 1011 with the expected reason. -/
theorem connect_upstream_retries_witness :
    terminalClose ⟨fun _ => false, fun _ => true, fun _ => false⟩
      = some (1011, "Could not connect to terminal")
    ∧ ((connectToContainerWs ⟨fun _ => false, fun _ => true, fun _ => false⟩).2.count
        (CEvent.direct 1500)) = 10 :=
  ⟨((connect_upstream_retries ⟨fun _ => false, fun _ => true, fun _ => false⟩).2.2.2.2
      (fun _ => rfl) (fun _ => rfl) (fun _ => rfl)).1,
   ((connect_upstream_retries ⟨fun _ => false, fun _ => true, fun _ => false⟩).2.2.2.2
      (fun _ => rfl) (fun _ => rfl) (fun _ => rfl)).2.1⟩

/-! ## Start lemmas (C1, C2) -/

theorem finishStart_count_of_ne (row : SessionRow) (name : String) (gb : Option String)
    (w : StartWorld) (tr : List DEvent) (rm : Option (List Mount)) (e : DEvent)
    (h1 : e ≠ DEvent.isRunningQ) (h2 : e ≠ DEvent.execGit) (h3 : e ≠ DEvent.updateDb)
    (h4 : e ≠ DEvent.notifyE) :
    ((finishStart row name gb w tr rm).trace.count e) = tr.count e := by
  rcases hp : w.probe2 with _ | b
  · simp [finishStart, hp, List.count_append, List.count_cons, beq_iff_eq, Ne.symm h1]
  · cases b
    · simp [finishStart, hp, List.count_append, List.count_cons, beq_iff_eq, Ne.symm h1]
    · rcases hg : gb with _ | s
      · rcases hpj : row.projectId with _ | p <;>
          simp [finishStart, hp, hg, hpj, List.count_append, List.count_cons, beq_iff_eq,
            Ne.symm h1, Ne.symm h2, Ne.symm h3, Ne.symm h4]
      · by_cases hs : s = "" <;> rcases hpj : row.projectId with _ | p <;>
          simp [finishStart, hp, hg, hs, hpj, List.count_append, List.count_cons, beq_iff_eq,
            Ne.symm h1, Ne.symm h2, Ne.symm h3, Ne.symm h4]

theorem finishStart_trace_append (row : SessionRow) (name : String) (gb : Option String)
    (w : StartWorld) (tr : List DEvent) (rm : Option (List Mount)) :
    ∃ s, (finishStart row name gb w tr rm).trace = tr ++ s := by
  rcases hp : w.probe2 with _ | b
  · exact ⟨[DEvent.isRunningQ], by simp [finishStart, hp]⟩
  · cases b
    · exact ⟨[DEvent.isRunningQ], by simp [finishStart, hp]⟩
    · refine ⟨[DEvent.isRunningQ]
        ++ (match gb with
            | some s => if s = "" then [] else [DEvent.execGit]
            | none => [])
        ++ [DEvent.updateDb]
        ++ (match row.projectId with
            | some _ => [DEvent.notifyE]
            | none => []), ?_⟩
      simp [finishStart, hp, List.append_assoc]

theorem finishStart_runMounts (row : SessionRow) (name : String) (gb : Option String)
    (w : StartWorld) (tr : List DEvent) (rm : Option (List Mount)) :
    (finishStart row name gb w tr rm).runMounts = rm := by
  rcases hp : w.probe2 with _ | b
  · simp [finishStart, hp]
  · cases b <;> simp [finishStart, hp]

theorem startSession_probe_some (row : SessionRow) (sid : String)
    (suffix gb : Option String) (root : Option String) (de : String → Bool)
    (w : StartWorld) (b : Bool)
    (hstat : row.status ≠ SStatus.stopped) (hp : w.probe1 = some b) :
    startSession (some row) sid true suffix gb root de w
      = finishStart row (sessionContainerName sid) gb w
          [DEvent.isRunningQ, DEvent.restart] none := by
  simp only [startSession]
  rw [if_neg (show ¬ (¬ True
      ∧ (row.status = SStatus.starting ∨ row.status = SStatus.running)) from
    fun hc => hc.1 trivial)]
  rw [if_neg hstat]
  simp only [hp]
  cases b <;> rfl

theorem startSession_cold_err (row : SessionRow) (sid : String) (reset : Bool)
    (suffix gb : Option String) (root : Option String) (de : String → Bool)
    (w : StartWorld) (m : Option String) (e : StartErr)
    (hstat : row.status ≠ SStatus.stopped)
    (hsc : reset = true ∨ (row.status ≠ SStatus.starting ∧ row.status ≠ SStatus.running))
    (hp : w.probe1 = none)
    (hws : resolveWorkspaceMount root de suffix = Except.ok m)
    (hl : (createLoop w 0 (MAX_LAYER_RETRIES + 1)).1 = Except.error e) :
    startSession (some row) sid reset suffix gb root de w
      = { res := Except.error e,
          trace := DEvent.isRunningQ :: DEvent.buildMounts :: DEvent.ensureNetwork ::
            DEvent.pull :: (createLoop w 0 (MAX_LAYER_RETRIES + 1)).2,
          runMounts := some (w.agentMounts ++ (match m with
            | some c => [Mount.mk c "/workspace"]
            | none => [])) } := by
  have hcond : ¬ (¬ (reset = true)
      ∧ (row.status = SStatus.starting ∨ row.status = SStatus.running)) := by
    rcases hsc with h | h
    · exact fun hc => hc.1 h
    · exact fun hc => hc.2.elim h.1 h.2
  simp only [startSession]
  rw [if_neg hcond, if_neg hstat]
  simp only [hp, hws, hl]
  cases m <;> rfl

theorem startSession_cold_ok (row : SessionRow) (sid : String) (reset : Bool)
    (suffix gb : Option String) (root : Option String) (de : String → Bool)
    (w : StartWorld) (m : Option String)
    (hstat : row.status ≠ SStatus.stopped)
    (hsc : reset = true ∨ (row.status ≠ SStatus.starting ∧ row.status ≠ SStatus.running))
    (hp : w.probe1 = none)
    (hws : resolveWorkspaceMount root de suffix = Except.ok m)
    (hl : (createLoop w 0 (MAX_LAYER_RETRIES + 1)).1 = Except.ok ()) :
    startSession (some row) sid reset suffix gb root de w
      = finishStart row (sessionContainerName sid) gb w
          (DEvent.isRunningQ :: DEvent.buildMounts :: DEvent.ensureNetwork ::
            DEvent.pull :: (createLoop w 0 (MAX_LAYER_RETRIES + 1)).2)
          (some (w.agentMounts ++ (match m with
            | some c => [Mount.mk c "/workspace"]
            | none => []))) := by
  have hcond : ¬ (¬ (reset = true)
      ∧ (row.status = SStatus.starting ∨ row.status = SStatus.running)) := by
    rcases hsc with h | h
    · exact fun hc => hc.1 h
    · exact fun hc => hc.2.elim h.1 h.2
  simp only [startSession]
  rw [if_neg hcond, if_neg hstat]
  simp only [hp, hws, hl]
  cases m <;> rfl

/-- C1 counterexample: with `reset = true` on a `pending` session whose
container is missing and whose first `run` attempt fails `LayerLocked`,
`start` makes two `run` calls (and no `restart`), so "never more than one"
fails as stated. -/
theorem start_reset_two_runs_counterexample :
    ((startSession (some ⟨SStatus.pending, none, none⟩) "s1" true none none none (fun _ => false)
        ⟨none, fun k => if k == 0 then RunOutcome.locked else RunOutcome.ok, true, some true,
          []⟩).trace.count DEvent.run) = 2
    ∧ ((startSession (some ⟨SStatus.pending, none, none⟩) "s1" true none none none
        (fun _ => false)
        ⟨none, fun k => if k == 0 then RunOutcome.locked else RunOutcome.ok, true, some true,
          []⟩).trace.count DEvent.restart) = 0 := by
  constructor <;> decide

/-- C1 (amended): `start(reset = true)` on an existing, non-stopped session
whose workspace resolution succeeds makes exactly one `restart` call and no
`run` call when the container exists, and no `restart` and at least one
`run` call when the container is missing - exactly one `run` call when the
first `run` attempt succeeds (retries can add further `run` calls only
when a `run` attempt fails). -/
theorem start_reset_driver_calls (row : SessionRow) (sid : String)
    (suffix gb : Option String) (root : Option String) (de : String → Bool)
    (w : StartWorld) (m : Option String)
    (hstat : row.status ≠ SStatus.stopped)
    (hws : resolveWorkspaceMount root de suffix = Except.ok m) :
    (∀ b, w.probe1 = some b →
      ((startSession (some row) sid true suffix gb root de w).trace.count DEvent.restart = 1
        ∧ (startSession (some row) sid true suffix gb root de w).trace.count DEvent.run = 0))
    ∧ (w.probe1 = none →
      ((startSession (some row) sid true suffix gb root de w).trace.count DEvent.restart = 0
        ∧ 1 ≤ (startSession (some row) sid true suffix gb root de w).trace.count DEvent.run
        ∧ (w.runOutcome 0 = RunOutcome.ok →
            (startSession (some row) sid true suffix gb root de w).trace.count DEvent.run
              = 1))) := by
  constructor
  · intro b hb
    rw [startSession_probe_some row sid suffix gb root de w b hstat hb]
    constructor
    · rw [finishStart_count_of_ne row _ gb w _ none DEvent.restart (by decide) (by decide)
        (by decide) (by decide)]
      decide
    · rw [finishStart_count_of_ne row _ gb w _ none DEvent.run (by decide) (by decide)
        (by decide) (by decide)]
      decide
  · intro hp
    have hrestart0 := createLoop_count_restart w (MAX_LAYER_RETRIES + 1) 0
    have hrunpos := createLoop_count_run_pos w MAX_LAYER_RETRIES 0
    rcases hres : (createLoop w 0 (MAX_LAYER_RETRIES + 1)).1 with e | u
    · rw [startSession_cold_err row sid true suffix gb root de w m e hstat (Or.inl rfl) hp hws
        hres]
      refine ⟨?_, ?_, ?_⟩
      · simp [List.count_cons, beq_iff_eq, hrestart0]
      · simp only [List.count_cons]
        omega
      · intro hok
        rw [createLoop_first_ok w 0 MAX_LAYER_RETRIES hok] at hres
        simp at hres
    · cases u
      rw [startSession_cold_ok row sid true suffix gb root de w m hstat (Or.inl rfl) hp hws
        hres]
      rw [finishStart_count_of_ne row _ gb w _ _ DEvent.restart (by decide) (by decide)
        (by decide) (by decide),
        finishStart_count_of_ne row _ gb w _ _ DEvent.run (by decide) (by decide)
        (by decide) (by decide)]
      refine ⟨?_, ?_, ?_⟩
      · simp [List.count_cons, beq_iff_eq, hrestart0]
      · simp only [List.count_cons]
        omega
      · intro hok
        rw [createLoop_first_ok w 0 MAX_LAYER_RETRIES hok]
        decide

/-- Witness for C1 (amended) at a concrete world whose container exists:
exactly one restart, no run. -/
theorem start_reset_driver_calls_witness :
    ((startSession (some ⟨SStatus.running, some "c", none⟩) "s1" true none none none
        (fun _ => false)
        ⟨some true, fun _ => RunOutcome.ok, true, some true, []⟩).trace.count DEvent.restart = 1
      ∧ (startSession (some ⟨SStatus.running, some "c", none⟩) "s1" true none none none
        (fun _ => false)
        ⟨some true, fun _ => RunOutcome.ok, true, some true, []⟩).trace.count DEvent.run = 0) :=
  (start_reset_driver_calls ⟨SStatus.running, some "c", none⟩ "s1" none none none
      (fun _ => false) ⟨some true, fun _ => RunOutcome.ok, true, some true, []⟩ none
      (by decide) rfl).1 true rfl

/-- C2: on every `start` that reaches the probe and finds the container
missing (`isRunning` = no such container) with workspace resolution
succeeding, the service first builds the mounts, calls `ensureNetwork` and
calls `pull` - in that order, before any `run` call; and in the cold-start
scenario where the first `run` succeeds, `pull`, `ensureNetwork` and `run`
are each called exactly once. -/
theorem start_cold_pull_before_run (row : SessionRow) (sid : String) (reset : Bool)
    (suffix gb : Option String) (root : Option String) (de : String → Bool)
    (w : StartWorld) (m : Option String)
    (hstat : row.status ≠ SStatus.stopped)
    (hsc : reset = true ∨ (row.status ≠ SStatus.starting ∧ row.status ≠ SStatus.running))
    (hp : w.probe1 = none)
    (hws : resolveWorkspaceMount root de suffix = Except.ok m) :
    (∃ t, (startSession (some row) sid reset suffix gb root de w).trace
        = DEvent.isRunningQ :: DEvent.buildMounts :: DEvent.ensureNetwork :: DEvent.pull :: t)
    ∧ (w.runOutcome 0 = RunOutcome.ok →
        ((startSession (some row) sid reset suffix gb root de w).trace.count DEvent.pull = 1
          ∧ (startSession (some row) sid reset suffix gb root de w).trace.count
              DEvent.ensureNetwork = 1
          ∧ (startSession (some row) sid reset suffix gb root de w).trace.count
              DEvent.run = 1)) := by
  rcases hres : (createLoop w 0 (MAX_LAYER_RETRIES + 1)).1 with e | u
  · rw [startSession_cold_err row sid reset suffix gb root de w m e hstat hsc hp hws hres]
    constructor
    · exact ⟨(createLoop w 0 (MAX_LAYER_RETRIES + 1)).2, rfl⟩
    · intro hok
      rw [createLoop_first_ok w 0 MAX_LAYER_RETRIES hok] at hres
      simp at hres
  · cases u
    rw [startSession_cold_ok row sid reset suffix gb root de w m hstat hsc hp hws hres]
    constructor
    · obtain ⟨s, hs⟩ := finishStart_trace_append row (sessionContainerName sid) gb w
        (DEvent.isRunningQ :: DEvent.buildMounts :: DEvent.ensureNetwork ::
          DEvent.pull :: (createLoop w 0 (MAX_LAYER_RETRIES + 1)).2)
        (some (w.agentMounts ++ (match m with
          | some c => [Mount.mk c "/workspace"]
          | none => [])))
      refine ⟨(createLoop w 0 (MAX_LAYER_RETRIES + 1)).2 ++ s, ?_⟩
      rw [hs]
      simp [List.cons_append]
    · intro hok
      rw [finishStart_count_of_ne row _ gb w _ _ DEvent.pull (by decide) (by decide)
        (by decide) (by decide),
        finishStart_count_of_ne row _ gb w _ _ DEvent.ensureNetwork (by decide) (by decide)
        (by decide) (by decide),
        finishStart_count_of_ne row _ gb w _ _ DEvent.run (by decide) (by decide)
        (by decide) (by decide)]
      rw [createLoop_first_ok w 0 MAX_LAYER_RETRIES hok]
      refine ⟨by decide, by decide, by decide⟩

/-- Witness for C2 at a concrete cold-start world: the trace starts with
probe, mounts, network, pull, and each of pull/ensureNetwork/run is called
once. -/
theorem start_cold_pull_before_run_witness :
    (∃ t, (startSession (some ⟨SStatus.pending, none, none⟩) "s1" false none none none
        (fun _ => false) ⟨none, fun _ => RunOutcome.ok, true, some true, []⟩).trace
        = DEvent.isRunningQ :: DEvent.buildMounts :: DEvent.ensureNetwork :: DEvent.pull :: t)
    ∧ (startSession (some ⟨SStatus.pending, none, none⟩) "s1" false none none none
        (fun _ => false) ⟨none, fun _ => RunOutcome.ok, true, some true, []⟩).trace.count
        DEvent.run = 1 := by
  have h := start_cold_pull_before_run ⟨SStatus.pending, none, none⟩ "s1" false none none none
    (fun _ => false) ⟨none, fun _ => RunOutcome.ok, true, some true, []⟩ none
    (by decide) (Or.inr ⟨by decide, by decide⟩) rfl rfl
  exact ⟨h.1, (h.2 rfl).2.2⟩

/-! ## Workspace suffix validation (C4) -/

theorem startsWithL_iff (n : List Char) : ∀ h, startsWithL n h = true ↔ n <+: h := by
  induction n with
  | nil => intro h; simp [startsWithL]
  | cons p ps ih =>
    intro h
    cases h with
    | nil => simp [startsWithL]
    | cons c cs =>
      simp only [startsWithL, Bool.and_eq_true, decide_eq_true_eq, List.cons_prefix_cons]
      constructor
      · rintro ⟨h1, h2⟩; exact ⟨h1.symm, (ih cs).1 h2⟩
      · rintro ⟨h1, h2⟩; exact ⟨h1.symm, (ih cs).2 h2⟩

theorem containsSeq_iff (n : List Char) : ∀ h, containsSeq n h = true ↔ n <:+: h := by
  intro h
  induction h with
  | nil =>
    simp [containsSeq, List.isEmpty_iff, List.infix_nil]
  | cons c cs ih =>
    simp [containsSeq, startsWithL_iff, ih, List.infix_cons_iff]

theorem infix_dropWhile_of_head (p : Char → Bool) (c : Char) (cs : List Char)
    (hc : p c = false) :
    ∀ h : List Char, (c :: cs) <:+: h → (c :: cs) <:+: h.dropWhile p := by
  intro h
  induction h with
  | nil => intro hi; exact absurd hi (by simp)
  | cons x xs ih =>
    intro hi
    by_cases hx : p x = true
    · rw [List.dropWhile_cons_of_pos hx]
      rcases List.infix_cons_iff.1 hi with hpre | hinf
      · rcases List.cons_prefix_cons.1 hpre with ⟨rfl, _⟩
        rw [hc] at hx
        exact absurd hx (by decide)
      · exact ih hinf
    · rw [List.dropWhile_cons_of_neg hx]
      exact hi

theorem infix_trimChars (c : Char) (cs : List Char) (h : List Char)
    (hc : c.isWhitespace = false)
    (ht : ∀ x, (c :: cs).reverse.head? = some x → x.isWhitespace = false) :
    (c :: cs) <:+: h → (c :: cs) <:+: trimChars h := by
  intro hi
  have h1 := infix_dropWhile_of_head Char.isWhitespace c cs hc h hi
  have h2 : (c :: cs).reverse <:+: (h.dropWhile Char.isWhitespace).reverse :=
    List.reverse_infix.2 h1
  obtain ⟨d, ds, hd⟩ : ∃ d ds, (c :: cs).reverse = d :: ds := by
    cases hrev : (c :: cs).reverse with
    | nil => exact absurd hrev (by simp)
    | cons d ds => exact ⟨d, ds, rfl⟩
  have hdw : d.isWhitespace = false := ht d (by rw [hd]; rfl)
  rw [hd] at h2
  have h3 := infix_dropWhile_of_head Char.isWhitespace d ds hdw _ h2
  unfold trimChars
  refine List.reverse_infix.1 ?_
  rw [List.reverse_reverse, hd]
  exact h3

theorem stringEqEmpty_iff (t : String) : t = "" ↔ t.data = [] := by
  cases t with
  | mk l =>
    constructor
    · intro h; exact congrArg String.data h
    · intro h; subst h; rfl

theorem jsIncludes_trim_of_needle (s nd : String)
    (hne : nd.data ≠ [])
    (hh : ∀ x, nd.data.head? = some x → x.isWhitespace = false)
    (ht : ∀ x, nd.data.reverse.head? = some x → x.isWhitespace = false)
    (h : jsIncludes s nd = true) :
    jsIncludes (jsTrim s) nd = true ∧ jsTrim s ≠ "" := by
  have hinf : nd.data <:+: s.data := (containsSeq_iff nd.data s.data).1 h
  obtain ⟨c, cs, hcs⟩ : ∃ c cs, nd.data = c :: cs := by
    cases hnd : nd.data with
    | nil => exact absurd hnd hne
    | cons c cs => exact ⟨c, cs, rfl⟩
  have hc : c.isWhitespace = false := hh c (by rw [hcs]; rfl)
  have ht' : ∀ x, (c :: cs).reverse.head? = some x → x.isWhitespace = false := by
    intro x hx
    exact ht x (by rw [hcs]; exact hx)
  rw [hcs] at hinf
  have htrim : (c :: cs) <:+: trimChars s.data := infix_trimChars c cs s.data hc ht' hinf
  constructor
  · have : containsSeq nd.data (trimChars s.data) = true := by
      rw [hcs]
      exact (containsSeq_iff (c :: cs) (trimChars s.data)).2 htrim
    exact this
  · intro hz
    have hz' : trimChars s.data = [] := (stringEqEmpty_iff (jsTrim s)).1 hz
    rw [hz'] at htrim
    exact (by simp : (c :: cs) ≠ ([] : List Char)) (List.infix_nil.1 htrim)

/-- C4 counterexample: the non-empty suffix `" "` (whitespace only) is
accepted and resolves to the workspace root even in a world where no
directory exists (`dirExists` constantly false): the blank-suffix path
skips the existence check, so "every accepted suffix resolves to an
existing directory" fails as stated. -/
theorem workspace_blank_suffix_counterexample :
    resolveWorkspaceMount (some "/ws") (fun _ => false) (some " ") = Except.ok (some "/ws")
    ∧ (" " : String) ≠ "" := by
  constructor
  · rfl
  · decide

/-- C4 (amended): a suffix containing `".."`, `"/"` or `"\\"` is rejected
with the BAD_REQUEST "Invalid workspace selection." error; an accepted
suffix whose trimmed form is non-empty resolves (via `path.resolve`) to a
directory that exists per `fs.stat` and is mounted at `/workspace` in the
run options; a suffix that trims to the empty string is accepted as the
workspace root itself without an existence check. -/
theorem workspace_suffix_validation (rt : String) (de : String → Bool) (s : String) :
    ((jsIncludes s ".." || jsIncludes s "/" || jsIncludes s "\\") = true →
      resolveWorkspaceMount (some rt) de (some s)
        = Except.error "Invalid workspace selection.")
    ∧ (∀ c, resolveWorkspaceMount (some rt) de (some s) = Except.ok (some c) →
        jsTrim s ≠ "" → de c = true ∧ c = resolvePosix rt (jsTrim s))
    ∧ (jsTrim s = "" →
        resolveWorkspaceMount (some rt) de (some s) = Except.ok (some rt))
    ∧ (∀ (row : SessionRow) (sid : String) (gb : Option String) (w : StartWorld) (c : String),
        resolveWorkspaceMount (some rt) de (some s) = Except.ok (some c) →
        row.status ≠ SStatus.stopped → w.probe1 = none →
        (startSession (some row) sid true (some s) gb (some rt) de w).runMounts
          = some (w.agentMounts ++ [Mount.mk c "/workspace"])) := by
  refine ⟨?_, ?_, ?_, ?_⟩
  · intro h
    have hparts : jsIncludes s ".." = true ∨ jsIncludes s "/" = true
        ∨ jsIncludes s "\\" = true := by
      simpa [Bool.or_eq_true, or_assoc] using h
    have key : (jsIncludes (jsTrim s) ".." || jsIncludes (jsTrim s) "/"
        || jsIncludes (jsTrim s) "\\") = true ∧ jsTrim s ≠ "" := by
      rcases hparts with h1 | h1 | h1
      · have hk := jsIncludes_trim_of_needle s ".." (by decide)
          (fun x hx => by rcases Option.some.inj hx with rfl; decide)
          (fun x hx => by rcases Option.some.inj hx with rfl; decide) h1
        exact ⟨by simp [hk.1], hk.2⟩
      · have hk := jsIncludes_trim_of_needle s "/" (by decide)
          (fun x hx => by rcases Option.some.inj hx with rfl; decide)
          (fun x hx => by rcases Option.some.inj hx with rfl; decide) h1
        exact ⟨by simp [hk.1], hk.2⟩
      · have hk := jsIncludes_trim_of_needle s "\\" (by decide)
          (fun x hx => by rcases Option.some.inj hx with rfl; decide)
          (fun x hx => by rcases Option.some.inj hx with rfl; decide) h1
        exact ⟨by simp [hk.1], hk.2⟩
    simp only [resolveWorkspaceMount, Option.getD_some]
    rw [if_neg key.2, if_pos key.1]
  · intro c hok hne
    simp only [resolveWorkspaceMount, Option.getD_some] at hok
    rw [if_neg hne] at hok
    by_cases hinc : (jsIncludes (jsTrim s) ".." || jsIncludes (jsTrim s) "/"
        || jsIncludes (jsTrim s) "\\") = true
    · rw [if_pos hinc] at hok
      cases hok
    · rw [if_neg hinc] at hok
      by_cases hesc : (jsStartsWith (relativePosix rt (resolvePosix rt (jsTrim s))) ".."
          || jsStartsWith (relativePosix rt (resolvePosix rt (jsTrim s))) "/") = true
      · rw [if_pos hesc] at hok
        cases hok
      · rw [if_neg hesc] at hok
        by_cases hde : de (resolvePosix rt (jsTrim s)) = true
        · rw [if_pos hde] at hok
          have hceq : resolvePosix rt (jsTrim s) = c := by
            have h1 := Except.ok.inj hok
            exact Option.some.inj h1
          rw [← hceq]
          exact ⟨hde, rfl⟩
        · rw [if_neg hde] at hok
          cases hok
  · intro h
    simp only [resolveWorkspaceMount, Option.getD_some]
    rw [if_pos h]
  · intro row sid gb w c hok hstat hp
    rcases hres : (createLoop w 0 (MAX_LAYER_RETRIES + 1)).1 with e | u
    · rw [startSession_cold_err row sid true (some s) gb (some rt) de w (some c) e hstat
        (Or.inl rfl) hp hok hres]
    · cases u
      rw [startSession_cold_ok row sid true (some s) gb (some rt) de w (some c) hstat
        (Or.inl rfl) hp hok hres]
      rw [finishStart_runMounts]

/-- Witness for C4 (amended) at concrete inputs: the suffix `"../x"` is
rejected, and the accepted suffix `"proj"` resolves to `/ws/proj`, which
exists and is recorded with target `/workspace` in the run options. -/
theorem workspace_suffix_validation_witness :
    resolveWorkspaceMount (some "/ws") (fun q => q == "/ws/proj") (some "../x")
      = Except.error "Invalid workspace selection."
    ∧ ((fun q => q == "/ws/proj") "/ws/proj" = true
        ∧ "/ws/proj" = resolvePosix "/ws" (jsTrim "proj")) := by
  constructor
  · exact (workspace_suffix_validation "/ws" (fun q => q == "/ws/proj") "../x").1 (by decide)
  · exact (workspace_suffix_validation "/ws" (fun q => q == "/ws/proj") "proj").2.1
      "/ws/proj" rfl (by decide)

/-! ## Token redaction (C9) -/

theorem stripPrefixL_append : ∀ p s : List Char, stripPrefixL p (p ++ s) = some s
  | [], _ => rfl
  | c :: cs, s => by simp [stripPrefixL, stripPrefixL_append cs s]

theorem stripPrefixL_length (p : List Char) :
    ∀ s r : List Char, stripPrefixL p s = some r → s.length = p.length + r.length := by
  induction p with
  | nil =>
    intro s r h
    have : s = r := Option.some.inj h
    subst this
    simp
  | cons c cs ih =>
    intro s r h
    cases s with
    | nil => exact absurd h (by simp [stripPrefixL])
    | cons x xs =>
      by_cases hx : x = c
      · rw [show stripPrefixL (c :: cs) (x :: xs) = stripPrefixL cs xs by
          simp [stripPrefixL, hx]] at h
        have := ih xs r h
        simp [this]
        omega
      · exact absurd h (by simp [stripPrefixL, hx])

theorem takeNonAt_split : ∀ s : List Char, (takeNonAt s).1 ++ (takeNonAt s).2 = s := by
  intro s
  induction s with
  | nil => rfl
  | cons c cs ih =>
    by_cases hc : c = '@'
    · simp [takeNonAt, hc]
    · simp [takeNonAt, hc, ih]

theorem takeNonAt_append (t : List Char) (z : List Char) (h : ∀ c ∈ t, c ≠ '@') :
    takeNonAt (t ++ '@' :: z) = (t, '@' :: z) := by
  induction t with
  | nil => simp [takeNonAt]
  | cons c ct ih =>
    have hc : c ≠ '@' := h c (by simp)
    have iht := ih (fun x hx => h x (by simp [hx]))
    simp [takeNonAt, hc, iht]

theorem matchTail_shrink (s r : List Char) (h : matchTail s = some r) :
    r.length < s.length := by
  unfold matchTail at h
  rcases h1 : stripPrefixL httpsChars s with _ | r1
  · rw [h1] at h; exact absurd h (by simp)
  · rw [h1] at h
    simp only at h
    rcases h2 : (takeNonAt r1).2 with _ | ⟨c, r2⟩
    · rw [h2] at h; exact absurd h (by simp)
    · rw [h2] at h
      simp only at h
      by_cases hc : c = '@'
      · rw [if_pos hc] at h
        by_cases he : (takeNonAt r1).1.isEmpty
        · rw [if_pos he] at h; exact absurd h (by simp)
        · rw [if_neg he] at h
          have hs1 := stripPrefixL_length httpsChars s r1 h1
          have hs2 := stripPrefixL_length ghChars r2 r h
          have hsplit := takeNonAt_split r1
          have hlen : (takeNonAt r1).1.length + (takeNonAt r1).2.length = r1.length := by
            conv_rhs => rw [← hsplit]
            rw [List.length_append]
          rw [h2] at hlen
          simp at hlen
          have hhl : httpsChars.length = 8 := by decide
          have hgl : ghChars.length = 10 := by decide
          omega
      · rw [if_neg hc] at h; exact absurd h (by simp)

theorem sanitizeChars_congr :
    ∀ f1 : Nat, ∀ s : List Char, ∀ f2 : Nat, s.length ≤ f1 → s.length ≤ f2 →
      sanitizeChars f1 s = sanitizeChars f2 s := by
  intro f1
  induction f1 with
  | zero =>
    intro s f2 h1 _
    have : s = [] := List.length_eq_zero.1 (Nat.le_zero.1 h1)
    subst this
    cases f2 <;> rfl
  | succ n ih =>
    intro s f2 h1 h2
    cases s with
    | nil => cases f2 <;> rfl
    | cons c cs =>
      cases f2 with
      | zero => exact absurd h2 (by simp)
      | succ m =>
        simp only [sanitizeChars]
        rcases hm : matchTail (c :: cs) with _ | r
        · have hcs1 : cs.length ≤ n := by simp at h1; omega
          have hcs2 : cs.length ≤ m := by simp at h2; omega
          show c :: sanitizeChars n cs = c :: sanitizeChars m cs
          rw [ih cs m hcs1 hcs2]
        · have hr := matchTail_shrink (c :: cs) r hm
          have hr1 : r.length ≤ n := by simp at h1 hr; omega
          have hr2 : r.length ≤ m := by simp at h2 hr; omega
          show replChars ++ sanitizeChars n r = replChars ++ sanitizeChars m r
          rw [ih r m hr1 hr2]

theorem sanitizeL_step (s r : List Char) (h : matchTail s = some r) :
    sanitizeL s = replChars ++ sanitizeL r := by
  cases s with
  | nil => exact absurd h (by intro hc; cases hc)
  | cons c cs =>
    have hr := matchTail_shrink (c :: cs) r h
    unfold sanitizeL
    rw [show (c :: cs).length = cs.length + 1 by simp]
    simp only [sanitizeChars, h]
    rw [sanitizeChars_congr cs.length r r.length (by simp at hr; omega) (Nat.le_refl _)]

theorem matchTail_exact (t rest : List Char) (ht : t ≠ []) (hat : ∀ c ∈ t, c ≠ '@') :
    matchTail (httpsChars ++ (t ++ '@' :: (ghChars ++ rest))) = some rest := by
  unfold matchTail
  rw [stripPrefixL_append httpsChars (t ++ '@' :: (ghChars ++ rest))]
  simp only
  rw [takeNonAt_append t (ghChars ++ rest) hat]
  simp only [if_true]
  obtain ⟨c0, ts, rfl⟩ : ∃ c0 ts, t = c0 :: ts := by
    cases t with
    | nil => exact absurd rfl ht
    | cons c0 ts => exact ⟨c0, ts, rfl⟩
  rw [if_neg (by simp)]
  exact stripPrefixL_append ghChars rest

/-- C9 counterexample: the clone URL is token-authenticated, but the
sanitiser only replaces `https://<userinfo>@github.com` URL substrings, so
a raw git error that mentions the token outside such a URL is thrown to
the caller with the token intact. -/
theorem clone_token_leak_counterexample :
    cloneUrlFor (some "tok123") "acme" "widgets"
      = "https://tok123@github.com/acme/widgets.git"
    ∧ cloneThrownMessage "remote: token tok123 was rejected"
      = "Failed to clone repository: remote: token tok123 was rejected"
    ∧ jsIncludes (cloneThrownMessage "remote: token tok123 was rejected") "tok123" = true := by
  refine ⟨rfl, ?_, ?_⟩ <;> decide

/-- C9 (amended): `gitService.clone` uses the token-authenticated URL
`https://<token>@github.com/...` when a token is configured; the error it
throws is `"Failed to clone repository: "` followed by the raw message with
every `https://<userinfo>@github.com` substring replaced by
`https://***@github.com` - in particular a message carrying the
authenticated URL has the token inside the URL redacted - but a token
occurring outside such a URL substring is not removed. -/
theorem clone_token_redaction (t owner repo rest raw : String)
    (ht : t.data ≠ []) (hat : ∀ c ∈ t.data, c ≠ '@') :
    cloneUrlFor (some t) owner repo
      = "https://" ++ t ++ "@github.com/" ++ owner ++ "/" ++ repo ++ ".git"
    ∧ cloneThrownMessage raw = "Failed to clone repository: " ++ sanitizeMessage raw
    ∧ sanitizeMessage ("https://" ++ t ++ "@github.com" ++ rest)
      = "https://***@github.com" ++ sanitizeMessage rest := by
  refine ⟨rfl, rfl, ?_⟩
  have hX : ("https://" ++ t ++ "@github.com" ++ rest).data
      = httpsChars ++ (t.data ++ '@' :: (ghChars ++ rest.data)) := by
    simp [String.data_append, httpsChars, ghChars, List.append_assoc]
  have hm : matchTail (("https://" ++ t ++ "@github.com" ++ rest).data) = some rest.data := by
    rw [hX]
    exact matchTail_exact t.data rest.data ht hat
  have hstep := sanitizeL_step _ _ hm
  show String.mk (sanitizeL ("https://" ++ t ++ "@github.com" ++ rest).data) = _
  rw [hstep]
  rfl

/-- Witness for C9 (amended) at a concrete token: the leading
authenticated URL in the error message is replaced by the redacted form. -/
theorem clone_token_redaction_witness :
    cloneUrlFor (some "tok") "o" "r" = "https://" ++ "tok" ++ "@github.com/" ++ "o" ++ "/"
      ++ "r" ++ ".git"
    ∧ sanitizeMessage ("https://" ++ "tok" ++ "@github.com" ++ "/o/r.git failed")
      = "https://***@github.com" ++ sanitizeMessage "/o/r.git failed" := by
  have h := clone_token_redaction "tok" "o" "r" "/o/r.git failed" "x"
    (by decide) (by decide)
  exact ⟨h.1, h.2.2⟩

end OpenCommander
